import Mathlib

/-!
Verification development for the assignment engine of the AI_Ticket_Manager
repository (backend/ai_engine/assigner.py and backend/ai_engine/utils.py).

The Python engine is shallowly embedded as executable Lean definitions:

* Floating point arithmetic on availabilities, capacities, and heuristic
  scores is embedded as exact rational arithmetic over `ℚ` (the spec states
  the formulas over real numbers; all constants 0.4, 0.5, 0.1, 5.0, 20 are
  exact).
* A pandas developer row becomes the `Developer` structure; a ticket row
  becomes the `Ticket` structure.  Fields read through `.get(k, default)`
  in the source are embedded as `Option` fields read through `Option.getD`.
* The shared `assignment_tracker` dict (one entry per developer name,
  guarded by `tracker_lock`) becomes a total function `Tracker` from names
  to tallies; dict mutation becomes functional update.
* The external OpenAI call is an unreliable oracle; it is embedded as an
  input `ℕ → OracleOutcome` giving, per retry attempt, either the parsed
  JSON fields of a successful response, a JSON decode failure, or a raised
  exception with its message string.  The thread pool dispatches one task
  per ticket; tracker access is lock protected in the source, so the batch
  is embedded as one sequential interleaving: tickets are processed in
  submission order, threading the tracker through.
* Python string operations used by the engine (`in` substring test,
  `lower`, `strip`) are embedded as executable functions on `String`.
-/

namespace TicketMgr

/-- Is the first character list a leading block of the second (helper for
the Python substring test). -/
def charsPre : List Char → List Char → Bool
  | [], _ => true
  | _ :: _, [] => false
  | a :: as, b :: bs => a == b && charsPre as bs

/-- Does the first character list occur contiguously inside the second. -/
def charsSub (needle : List Char) : List Char → Bool
  | [] => charsPre needle []
  | b :: bs => charsPre needle (b :: bs) || charsSub needle bs

/-- Python `needle in haystack` substring containment on strings. -/
def containsSub (needle haystack : String) : Bool :=
  charsSub needle.data haystack.data

/-- One row of the developers CSV after `load_developers_csv` renames the
columns (`experience` to `experience_years`, `workload` to
`current_workload`).  The `title` column may be missing or NaN, hence
`Option`. -/
structure Developer where
  name : String
  title : Option String
  availability : ℚ
  current_workload : ℤ
  skills : String
  experience_years : ℚ
deriving DecidableEq

/-- One row of the tickets DataFrame handed to `assign_ticket_from_csv`.
`story_points`, `required_skill` and `priority` are read via
`ticket.get(..., default)` in the source, hence `Option` fields. -/
structure Ticket where
  id : ℤ
  description : String
  story_points : Option ℤ
  required_skill : Option String
  priority : Option String
deriving DecidableEq

/-- Python `int(ticket[...])` on the integer ticket id (the data model fixes ids
to integers, so the conversion is the identity). -/
def pyId (t : Ticket) : ℤ := t.id

/-- Python `int(ticket.get(a_points_key, 0) or 0)`: a missing value (and the
falsy value 0) collapses to 0. -/
def pyPoints (t : Ticket) : ℤ := t.story_points.getD 0

/-- The per-developer entry of `assignment_tracker`:
`{tickets: 0, story_points: 0}` counters for the current batch. -/
structure Tally where
  tickets : ℕ
  story_points : ℤ

/-- The shared batch tracker: developer name to in-batch tally. -/
def Tracker : Type := String → Tally

/-- The tracker as initialised at the start of `assign_ticket_from_csv`:
all counters zero. -/
def zeroTracker : Tracker := fun _ => ⟨0, 0⟩

/-- The update `assignment_tracker[name].tickets += 1` and
`... .story_points += points`, performed under `tracker_lock`. -/
def recordAssign (tracker : Tracker) (n : String) (p : ℤ) : Tracker :=
  fun m =>
    if m = n then ⟨(tracker n).tickets + 1, (tracker n).story_points + p⟩
    else tracker m

/-- Function `calculate_developer_capacity` from utils.py:
`availability * (20 - current_workload)`. -/
def calculate_developer_capacity (availability : ℚ) (current_workload : ℤ) : ℚ :=
  availability * (20 - (current_workload : ℚ))

/-- The column `developers_df[a_name_col].values`: the roster names in row order. -/
def rosterNames (devs : List Developer) : List String := devs.map (·.name)

/-- The value `remaining_capacity = base_capacity - assigned_points` for one
developer, reading the in-batch points from the tracker. -/
def devRemaining (tracker : Tracker) (d : Developer) : ℚ :=
  calculate_developer_capacity d.availability d.current_workload
    - ((tracker d.name).story_points : ℚ)

/-- Python `str(ticket.get(a_skill_key, "")).lower()`. -/
def requiredSkillLower (t : Ticket) : String :=
  (t.required_skill.getD "").toLower

/-- The heuristic score computed for one gate-passing developer inside
`smart_fallback_assignment`: capacity weight, skill-match bonus,
distribution bonus, experience bonus. -/
def devScore (t : Ticket) (tracker : Tracker) (d : Developer) : ℚ :=
  devRemaining tracker d * (0.4 : ℚ)
    + (if containsSub (requiredSkillLower t) d.skills.toLower then (5.0 : ℚ) else 0)
    + ((10 : ℚ) - ((tracker d.name).tickets : ℚ)) * (0.5 : ℚ)
    + d.experience_years * (0.1 : ℚ)

/-- The hard capacity gate of the fallback scorer: the developer is NOT
skipped, i.e. `remaining_capacity < story_points` is false. -/
def gatePass (t : Ticket) (tracker : Tracker) (d : Developer) : Prop :=
  ¬ devRemaining tracker d < ((pyPoints t : ℤ) : ℚ)

instance (t : Ticket) (tracker : Tracker) (d : Developer) :
    Decidable (gatePass t tracker d) := by
  unfold gatePass; infer_instance

/-- One iteration of the `for _, dev in developers_df.iterrows()` loop of
`smart_fallback_assignment`, acting on the `(best_dev, best_score)`
accumulator. -/
def fallbackStep (t : Ticket) (tracker : Tracker)
    (acc : Option String × ℚ) (d : Developer) : Option String × ℚ :=
  if devRemaining tracker d < ((pyPoints t : ℤ) : ℚ) then acc
  else if devScore t tracker d > acc.2 then (some d.name, devScore t tracker d)
  else acc

/-- The key of the final `max(...)` call of `smart_fallback_assignment`:
`capacity(df[df.name == name].iloc[0]) - tracker[name].story_points`,
where `.iloc[0]` takes the first row carrying that name. -/
def fallbackMaxKey (devs : List Developer) (tracker : Tracker) (name : String) : ℚ :=
  match devs.find? (fun d => d.name == name) with
  | some d =>
      calculate_developer_capacity d.availability d.current_workload
        - ((tracker name).story_points : ℚ)
  | none => 0

/-- Python `max(xs, key=k)`: first element attaining the maximal key wins;
`none` models the ValueError raised on an empty sequence. -/
def pyMaxBy (key : String → ℚ) : List String → Option String
  | [] => none
  | x :: xs => some (xs.foldl (fun best y => if key y > key best then y else best) x)

/-- Function `smart_fallback_assignment` from assigner.py: loop all developers with
the capacity gate and the heuristic score starting from `best_score = -1`;
if no developer was picked, fall back to the maximal remaining capacity. -/
def smart_fallback_assignment (devs : List Developer) (t : Ticket)
    (tracker : Tracker) : Option String :=
  match (devs.foldl (fallbackStep t tracker) ((none : Option String), (-1 : ℚ))).1 with
  | some n => some n
  | none => pyMaxBy (fallbackMaxKey devs tracker) (rosterNames devs)

/-- The observable outcome of one `client.chat.completions.create` call
followed by `json.loads`: either the parsed `assigned_to` / `reason`
fields, or a `json.JSONDecodeError`, or any other raised exception with
its `str(e)` message. -/
inductive OracleOutcome where
  | ok (assigned_to : String) (reason : String)
  | jsonError
  | exn (msg : String)
deriving DecidableEq

/-- How one attempt is handled by the try/except ladder of
`assign_single_ticket` (lines 110-201 of assigner.py). -/
inductive OClass where
  | valid (name : String) (reason : String)
  | jsonErr
  | rateLimit (msg : String)
  | authErr (msg : String)
  | otherErr (msg : String)
deriving DecidableEq

/-- The `except Exception` ladder: rate-limit indicators are tested
first, then authentication indicators, else the generic branch. -/
def classifyMsg (msg : String) : OClass :=
  if containsSub "rate limit" msg.toLower || containsSub "429" msg then
    .rateLimit msg
  else if containsSub "authentication" msg.toLower || containsSub "401" msg
      || containsSub "403" msg then
    .authErr msg
  else .otherErr msg

/-- The `ValueError` message raised for an assignee outside the roster
(line 117); note the raised message is later inspected by the same
substring checks as any other exception message. -/
def invalidNameMsg (assigned_to : String) : String :=
  "Invalid developer name: " ++ assigned_to.trim

/-- Classify one oracle attempt: a successful parse validates
`assignment_data.get("assigned_to", "").strip()` against the roster
names; an unknown name raises a `ValueError` that falls into the generic
`except Exception` ladder. -/
def classifyOutcome (names : List String) : OracleOutcome → OClass
  | .ok a reason =>
      if a.trim ∈ names then .valid a.trim reason
      else classifyMsg (invalidNameMsg a)
  | .jsonError => .jsonErr
  | .exn msg => classifyMsg msg

/-- Provenance of the `reason` field of a result.  The source builds long
audit strings interpolating developer data; the embedding records which
branch produced the reason and the exception message it embeds. -/
inductive Reason where
  | oracle (text : String)
  | fallbackJson
  | fallbackApi (errMsg : String)
  | fallbackParallel (errMsg : String)
deriving DecidableEq

/-- One `{ticket_id, assigned_to, reason}` output dictionary. -/
structure AssignmentResult where
  ticket_id : ℤ
  assigned_to : String
  reason : Reason
deriving DecidableEq

/-- The message of the `ValueError` re-raised on an authentication
classified failure (line 172). -/
def authErrorText (msg : String) : String :=
  "OpenAI API authentication error: " ++ msg ++ ". Please check your API key."

/-- What one per-ticket task does: return `result` (which is `None` when
the retry loop exhausts without setting it), or let an exception escape.
The task also carries the tracker it leaves behind and the list of
`time.sleep` durations it performed. -/
inductive TaskOutcome where
  | finished (result : Option AssignmentResult) (tracker : Tracker) (sleeps : List ℤ)
  | raised (msg : String) (tracker : Tracker) (sleeps : List ℤ)

/-- The fallback block shared by the two in-task exhaustion paths: pick a
developer by `smart_fallback_assignment`, record it in the tracker, and
build the fallback result.  An empty roster makes the final `max` of the
scorer raise, which escapes the task. -/
def taskFallback (devs : List Developer) (t : Ticket) (tracker : Tracker)
    (reason : Reason) (sleeps : List ℤ) : TaskOutcome :=
  match smart_fallback_assignment devs t tracker with
  | none => .raised "max() arg is an empty sequence" tracker sleeps
  | some n =>
      .finished (some ⟨pyId t, n, reason⟩) (recordAssign tracker n (pyPoints t)) sleeps

/-- The second (final) pass of the retry loop, at `retry_count = 1`:
a json decode failure now reaches `retry_count >= max_retries` and falls
back; a generic error reaches `retry_count >= max_retries - 1` and falls
back; a rate-limit failure sleeps `(1 + 1) * 2` and exits the loop with
`result = None`; an authentication failure re-raises. -/
def finalAttempt (devs : List Developer) (t : Ticket) (tracker : Tracker)
    (sleeps0 : List ℤ) : OClass → TaskOutcome
  | .valid n re =>
      .finished (some ⟨pyId t, n, .oracle re⟩)
        (recordAssign tracker n (pyPoints t)) sleeps0
  | .authErr m => .raised (authErrorText m) tracker sleeps0
  | .rateLimit _ => .finished none tracker (sleeps0 ++ [4])
  | .jsonErr => taskFallback devs t tracker .fallbackJson sleeps0
  | .otherErr m => taskFallback devs t tracker (.fallbackApi m) sleeps0

/-- Function `assign_single_ticket` from assigner.py: the
`while retry_count < max_retries and not assigned` loop with
`max_retries = 2`, unrolled into its two attempts.  On the first attempt
(`retry_count = 0`) a valid response records and returns, an
authentication failure re-raises, a rate-limit failure sleeps
`(0 + 1) * 2` and retries, and json / generic failures retry without
reaching their fallback thresholds. -/
def assign_single_ticket (devs : List Developer) (oracleT : ℕ → OracleOutcome)
    (t : Ticket) (tracker : Tracker) : TaskOutcome :=
  match classifyOutcome (rosterNames devs) (oracleT 0) with
  | .valid n re =>
      .finished (some ⟨pyId t, n, .oracle re⟩)
        (recordAssign tracker n (pyPoints t)) []
  | .authErr m => .raised (authErrorText m) tracker []
  | .rateLimit _ =>
      finalAttempt devs t tracker [2] (classifyOutcome (rosterNames devs) (oracleT 1))
  | .jsonErr =>
      finalAttempt devs t tracker [] (classifyOutcome (rosterNames devs) (oracleT 1))
  | .otherErr _ =>
      finalAttempt devs t tracker [] (classifyOutcome (rosterNames devs) (oracleT 1))

/-- Whether the task for a ticket ends with an appended result.  The only
resultless ending is a rate-limit classification on the final attempt
(the loop then exits with `result = None` and the orchestrator
drops it through its result truthiness check); a task-escaping authentication error still yields
a result through the catch-all fallback of the orchestrator. -/
def taskResolves (names : List String) (oracleT : ℕ → OracleOutcome) : Bool :=
  match classifyOutcome names (oracleT 0) with
  | .valid _ _ => true
  | .authErr _ => true
  | _ =>
      match classifyOutcome names (oracleT 1) with
      | .rateLimit _ => false
      | _ => true

/-- The result collection loop of `assign_ticket_from_csv` (lines
205-239): one task per ticket; a truthy returned result is appended; an
exception escaping a task is caught and answered with a fallback
assignment recorded in the tracker.  Tracker access is serialised by
`tracker_lock` in the source; the embedding runs the tasks in submission
order, threading the tracker.  `Except.error` models an exception
escaping the whole batch (only possible with an empty roster, when the
final `max` of the fallback scorer raise with an empty-sequence error). -/
def runBatchAux (devs : List Developer) (oracle : Ticket → ℕ → OracleOutcome) :
    List Ticket → Tracker → Except String (List AssignmentResult × Tracker)
  | [], tracker => .ok ([], tracker)
  | t :: ts, tracker =>
      match assign_single_ticket devs (oracle t) t tracker with
      | .finished none tr _ => runBatchAux devs oracle ts tr
      | .finished (some r) tr _ =>
          match runBatchAux devs oracle ts tr with
          | .error e => .error e
          | .ok (rs, trF) => .ok (r :: rs, trF)
      | .raised msg tr _ =>
          match smart_fallback_assignment devs t tr with
          | none => .error "max() arg is an empty sequence"
          | some n =>
              match runBatchAux devs oracle ts (recordAssign tr n (pyPoints t)) with
              | .error e => .error e
              | .ok (rs, trF) =>
                  .ok (AssignmentResult.mk (pyId t) n (.fallbackParallel msg) :: rs, trF)

/-- The output ordering relation of the final
`assignments.sort(key=lambda x: x["ticket_id"])`. -/
def resultLE (a b : AssignmentResult) : Prop := a.ticket_id ≤ b.ticket_id

instance : DecidableRel resultLE := fun a b => by unfold resultLE; infer_instance

instance : IsTotal AssignmentResult resultLE :=
  ⟨fun a b => le_total a.ticket_id b.ticket_id⟩

instance : IsTrans AssignmentResult resultLE :=
  ⟨fun _ _ _ h1 h2 => le_trans h1 h2⟩

/-- The batch pipeline after client initialisation: start from the all
zero tracker, collect the per-ticket results, and sort them ascending by
ticket id (a stable ascending sort, as in Python). -/
def runBatch (devs : List Developer) (oracle : Ticket → ℕ → OracleOutcome)
    (tickets : List Ticket) : Except String (List AssignmentResult) :=
  match runBatchAux devs oracle tickets zeroTracker with
  | .error e => .error e
  | .ok (rs, _) => .ok (List.insertionSort resultLE rs)

/-- Function `get_openai_client`: a missing key (`None` or the falsy empty string)
or the placeholder value raises a `ValueError` before any work is done. -/
def get_openai_client (api_key : Option String) : Except String Unit :=
  match api_key with
  | none =>
      .error "OPENAI_API_KEY environment variable is not set. Please set it in your .env file."
  | some k =>
      if k = "" then
        .error "OPENAI_API_KEY environment variable is not set. Please set it in your .env file."
      else if k = "your_openai_api_key_here" then
        .error "Please update your .env file with a valid OpenAI API key."
      else .ok ()

/-- Function `assign_ticket_from_csv`: load the roster (here a parameter), obtain
the client (raising on a bad key before any ticket is dispatched), then
run the batch. -/
def assign_ticket_from_csv (devs : List Developer) (api_key : Option String)
    (oracle : Ticket → ℕ → OracleOutcome) (tickets : List Ticket) :
    Except String (List AssignmentResult) :=
  match get_openai_client api_key with
  | .error e => .error e
  | .ok _ => runBatch devs oracle tickets

/-- The generic first-wins argmax used to state what step 4 of the Fallback
Scorer section of the spec describes: scan the list, a later element replaces the
current best only on a strictly larger key. -/
def firstArgmax {α : Type} (key : α → ℚ) : List α → Option α
  | [] => none
  | a :: as =>
      some ((firstArgmax key as).elim a fun b => if key b > key a then b else a)

/-- Modelled from the spec: the pick the claim describes for the Fallback
Scorer - score every gate-passing developer and return the one with the
maximal score, ties resolved by roster iteration order (first-seen wins).
Stated for comparison with `smart_fallback_assignment`. -/
def claimedFallbackPick (devs : List Developer) (t : Ticket)
    (tracker : Tracker) : Option String :=
  (firstArgmax (devScore t tracker)
      (devs.filter fun d => decide (gatePass t tracker d))).map (·.name)

/-- The batch-wide sum of recorded story points: the tracker column the
invariant claims range over, summed across the roster names. -/
def totalPoints (names : List String) (tracker : Tracker) : ℤ :=
  (names.map fun n => (tracker n).story_points).sum

/-- Proof helper: how one candidate produced by `firstArgmax` acts on a
`(best_dev, best_score)` accumulator of the scorer loop. -/
def applyBest (key : Developer → ℚ) (acc : Option String × ℚ) :
    Option Developer → Option String × ℚ
  | none => acc
  | some b => if key b > acc.2 then (some b.name, key b) else acc

/-- Concrete roster row used by witnesses: the example developer A of the
spec (full availability, no persisted workload, python skills). -/
def devAlice : Developer := ⟨"Alice", some "Software Engineer", 1, 0, "python, sql", 5⟩

/-- Example developer B of the spec (java skills, 2 years). -/
def devBob : Developer := ⟨"Bob", some "Software Engineer", 1, 0, "java", 2⟩

/-- Example developer C of the spec (half availability, workload 10,
python skills, 10 years). -/
def devCarol : Developer := ⟨"Carol", some "Software Engineer", (1 : ℚ)/2, 10, "python", 10⟩

/-- Concrete ticket used by witnesses: the spec example ticket needing
skill python, 3 story points. -/
def wTicket : Ticket := ⟨1, "fix login endpoint", some 3, some "python", none⟩

/-- A ticket with no required skill column, for the empty-skill claim. -/
def noSkillTicket : Ticket := ⟨3, "chore task", some 1, none, none⟩

/-- An oracle that always answers with a well-formed assignment to
Alice. -/
def okOracle : Ticket → ℕ → OracleOutcome := fun _ _ => .ok "Alice" "capacity fits"

/-- An oracle that always raises a rate-limit exception. -/
def rateOracle : Ticket → ℕ → OracleOutcome := fun _ _ => .exn "Rate limit exceeded"

/-- An oracle raising an HTTP 401 error on ticket 1 and answering
normally on every other ticket. -/
def authOracle : Ticket → ℕ → OracleOutcome := fun t _ =>
  if t.id = 1 then .exn "401 Unauthorized" else .ok "Alice" "second ticket assigned normally"

/-- An oracle that always names an unknown developer whose name happens
to contain the rate-limit indicator 429. -/
def halOracle : Ticket → ℕ → OracleOutcome := fun _ _ => .ok "HAL429" "chosen"

/-- An oracle that always names an unknown developer Bob. -/
def bobOracle : Ticket → ℕ → OracleOutcome := fun _ _ => .ok "Bob" "pick"

/-- First ticket of the two-ticket auth counterexample batch. -/
def tA : Ticket := ⟨1, "first", some 2, none, none⟩

/-- Second ticket of the two-ticket auth counterexample batch. -/
def tB : Ticket := ⟨2, "second", some 4, none, none⟩

/-- Counterexample developer with zero capacity and 13 in-batch tickets
(heuristic score -1.5, at or below the loop sentinel -1). -/
def devXena : Developer := ⟨"Xena", none, 0, 0, "python", 0⟩

/-- Counterexample developer with capacity 1 and 14 in-batch tickets
(heuristic score -1.6). -/
def devYuri : Developer := ⟨"Yuri", none, (1 : ℚ)/20, 0, "python", 0⟩

/-- Zero-point ticket whose required skill matches nobody. -/
def cexTicket : Ticket := ⟨9, "low priority", some 0, some "zz", none⟩

/-- Tracker state reached after a batch assigned 13 zero-point tickets to
Xena and 14 to Yuri. -/
def cexTracker : Tracker := fun n => if n = "Xena" then ⟨13, 0⟩ else ⟨14, 0⟩

/-! ### Helper lemmas -/

lemma charsSub_nil : ∀ l : List Char, charsSub [] l = true := by
  intro l
  induction l with
  | nil => rfl
  | cons b bs ih => simp [charsSub, charsPre]

lemma containsSub_empty (s : String) : containsSub "" s = true :=
  charsSub_nil s.data

lemma firstArgmax_eq_none {α : Type} (key : α → ℚ) :
    ∀ l : List α, firstArgmax key l = none → l = [] := by
  intro l h
  cases l with
  | nil => rfl
  | cons a as => simp [firstArgmax] at h

lemma firstArgmax_mem {α : Type} (key : α → ℚ) :
    ∀ (l : List α) (b : α), firstArgmax key l = some b → b ∈ l := by
  intro l
  induction l with
  | nil => intro b h; simp [firstArgmax] at h
  | cons a as ih =>
      intro b h
      simp only [firstArgmax, Option.some.injEq] at h
      cases hfa : firstArgmax key as with
      | none => rw [hfa] at h; simp only [Option.elim] at h; simp [h]
      | some c =>
          rw [hfa] at h
          simp only [Option.elim] at h
          by_cases hk : key c > key a
          · rw [if_pos hk] at h
            subst h
            exact List.mem_cons_of_mem _ (ih _ hfa)
          · rw [if_neg hk] at h
            simp [h]

lemma firstArgmax_ge {α : Type} (key : α → ℚ) :
    ∀ (l : List α) (a : α), a ∈ l → ∀ b, firstArgmax key l = some b → key a ≤ key b := by
  intro l
  induction l with
  | nil => intro a ha; simp at ha
  | cons c cs ih =>
      intro a ha b hb
      simp only [firstArgmax, Option.some.injEq] at hb
      cases hfa : firstArgmax key cs with
      | none =>
          have hcs : cs = [] := firstArgmax_eq_none key cs hfa
          subst hcs
          rw [hfa] at hb
          simp only [Option.elim] at hb
          subst hb
          simp only [List.mem_singleton] at ha
          subst ha
          exact le_refl _
      | some d =>
          rw [hfa] at hb
          simp only [Option.elim] at hb
          by_cases hk : key d > key c
          · rw [if_pos hk] at hb
            subst hb
            rcases List.mem_cons.mp ha with rfl | ha2
            · exact le_of_lt hk
            · exact ih a ha2 _ hfa
          · rw [if_neg hk] at hb
            subst hb
            rcases List.mem_cons.mp ha with rfl | ha2
            · exact le_refl _
            · exact le_trans (ih a ha2 _ hfa) (not_lt.mp hk)

lemma foldMax_spec (key : String → ℚ) :
    ∀ (xs : List String) (x : String),
      (xs.foldl (fun best y => if key y > key best then y else best) x) ∈ x :: xs ∧
        ∀ y ∈ x :: xs,
          key y ≤ key (xs.foldl (fun best y => if key y > key best then y else best) x) := by
  intro xs
  induction xs with
  | nil => intro x; simp
  | cons z zs ih =>
      intro x
      simp only [List.foldl_cons]
      obtain ⟨hmem, hge⟩ := ih (if key z > key x then z else x)
      constructor
      · rcases List.mem_cons.mp hmem with h | h
        · rw [h]
          by_cases hk : key z > key x
          · simp [hk]
          · simp [hk]
        · exact List.mem_cons_of_mem _ (List.mem_cons_of_mem _ h)
      · intro y hy
        have hstep : key y ≤ key (if key z > key x then z else x) → key y ≤
            key (zs.foldl (fun best y => if key y > key best then y else best)
              (if key z > key x then z else x)) :=
          fun h => le_trans h (hge _ (List.mem_cons_self _ _))
        rcases List.mem_cons.mp hy with rfl | hy2
        · refine hstep ?_
          by_cases hk : key z > key y
          · rw [if_pos hk]; exact le_of_lt hk
          · rw [if_neg hk]
        · rcases List.mem_cons.mp hy2 with rfl | hy3
          · refine hstep ?_
            by_cases hk : key y > key x
            · rw [if_pos hk]
            · rw [if_neg hk]; exact not_lt.mp hk
          · exact hge y (List.mem_cons_of_mem _ hy3)

lemma pyMaxBy_spec (key : String → ℚ) (xs : List String) (hne : xs ≠ []) :
    ∃ m, pyMaxBy key xs = some m ∧ m ∈ xs ∧ ∀ y ∈ xs, key y ≤ key m := by
  cases xs with
  | nil => exact absurd rfl hne
  | cons x xs =>
      obtain ⟨hmem, hge⟩ := foldMax_spec key xs x
      exact ⟨_, rfl, hmem, hge⟩

lemma find?_name_self :
    ∀ devs : List Developer, (rosterNames devs).Nodup →
      ∀ d ∈ devs, devs.find? (fun e => e.name == d.name) = some d := by
  intro devs
  induction devs with
  | nil => intro _ d hd; simp at hd
  | cons a as ih =>
      intro hnd d hd
      simp only [rosterNames, List.map_cons, List.nodup_cons] at hnd
      obtain ⟨hna, hnd2⟩ := hnd
      rcases List.mem_cons.mp hd with rfl | hd2
      · simp [List.find?]
      · have hne : (a.name == d.name) = false := by
          refine beq_eq_false_iff_ne.mpr fun h => hna ?_
          rw [h]
          exact List.mem_map.mpr ⟨d, hd2, rfl⟩
        rw [List.find?_cons_of_neg _ (by simp [hne]), ih hnd2 d hd2]

lemma fallback_loop_eq (t : Ticket) (tracker : Tracker) :
    ∀ (l : List Developer) (acc : Option String × ℚ),
      l.foldl (fallbackStep t tracker) acc
        = applyBest (devScore t tracker) acc
            (firstArgmax (devScore t tracker)
              (l.filter fun d => decide (gatePass t tracker d))) := by
  intro l
  induction l with
  | nil => intro acc; simp [applyBest, firstArgmax]
  | cons d ds ih =>
      intro acc
      by_cases hg : gatePass t tracker d
      · have hstep : fallbackStep t tracker acc d
            = if devScore t tracker d > acc.2 then (some d.name, devScore t tracker d)
              else acc := by
          unfold fallbackStep
          unfold gatePass at hg
          rw [if_neg hg]
        have hfilter : (d :: ds).filter (fun d => decide (gatePass t tracker d))
            = d :: ds.filter (fun d => decide (gatePass t tracker d)) := by
          simp [List.filter_cons, hg]
        rw [List.foldl_cons, ih, hfilter]
        simp only [firstArgmax]
        cases hfa : firstArgmax (devScore t tracker)
            (ds.filter fun d => decide (gatePass t tracker d)) with
        | none =>
            simp only [Option.elim, applyBest]
            rw [hstep]
        | some b =>
            simp only [Option.elim]
            by_cases hbd : devScore t tracker b > devScore t tracker d
            · rw [if_pos hbd]
              simp only [applyBest]
              rw [hstep]
              by_cases hda : devScore t tracker d > acc.2
              · rw [if_pos hda]
                show (if devScore t tracker b > devScore t tracker d then _ else _) = _
                rw [if_pos hbd, if_pos (lt_trans hda hbd)]
              · rw [if_neg hda]
            · rw [if_neg hbd]
              simp only [applyBest]
              rw [hstep]
              by_cases hda : devScore t tracker d > acc.2
              · rw [if_pos hda]
                show (if devScore t tracker b > devScore t tracker d then _ else _) = _
                rw [if_neg hbd]
              · rw [if_neg hda]
                have hb2 : ¬ devScore t tracker b > acc.2 :=
                  not_lt.mpr (le_trans (not_lt.mp hbd) (not_lt.mp hda))
                rw [if_neg hb2]
      · have hstep : fallbackStep t tracker acc d = acc := by
          unfold fallbackStep
          unfold gatePass at hg
          rw [if_pos (not_not.mp hg)]
        have hfilter : (d :: ds).filter (fun d => decide (gatePass t tracker d))
            = ds.filter (fun d => decide (gatePass t tracker d)) := by
          simp [List.filter_cons, hg]
        rw [List.foldl_cons, hstep, ih, hfilter]

lemma smart_fallback_exists (devs : List Developer) (t : Ticket) (tracker : Tracker)
    (hne : devs ≠ []) : ∃ n, smart_fallback_assignment devs t tracker = some n := by
  unfold smart_fallback_assignment
  cases hsc : (devs.foldl (fallbackStep t tracker) ((none : Option String), (-1 : ℚ))).1 with
  | some n => exact ⟨n, rfl⟩
  | none =>
      have hnames : rosterNames devs ≠ [] := by
        unfold rosterNames
        simpa using hne
      obtain ⟨m, hm, _, _⟩ := pyMaxBy_spec (fallbackMaxKey devs tracker) _ hnames
      exact ⟨m, hm⟩

lemma smart_fallback_mem (devs : List Developer) (t : Ticket) (tracker : Tracker)
    (n : String) (h : smart_fallback_assignment devs t tracker = some n) :
    n ∈ rosterNames devs := by
  unfold smart_fallback_assignment at h
  rw [fallback_loop_eq] at h
  cases hfa : firstArgmax (devScore t tracker)
      (devs.filter fun d => decide (gatePass t tracker d)) with
  | none =>
      rw [hfa] at h
      simp only [applyBest] at h
      cases hnames : rosterNames devs with
      | nil => rw [hnames] at h; simp [pyMaxBy] at h
      | cons x xs =>
          obtain ⟨m, hm, hmem, _⟩ :=
            pyMaxBy_spec (fallbackMaxKey devs tracker) (x :: xs) (by simp)
          rw [hnames, hm] at h
          simp only [Option.some.injEq] at h
          rw [← h]
          exact hmem
  | some b =>
      rw [hfa] at h
      simp only [applyBest] at h
      have hbmem := firstArgmax_mem (devScore t tracker) _ _ hfa
      rw [List.mem_filter] at hbmem
      by_cases hb1 : devScore t tracker b > (((none : Option String), (-1 : ℚ))).2
      · rw [if_pos hb1] at h
        simp only [Option.some.injEq] at h
        rw [← h]
        exact List.mem_map.mpr ⟨b, hbmem.1, rfl⟩
      · rw [if_neg hb1] at h
        simp only at h
        cases hnames : rosterNames devs with
        | nil => rw [hnames] at h; simp [pyMaxBy] at h
        | cons x xs =>
            obtain ⟨m, hm, hmem, _⟩ :=
              pyMaxBy_spec (fallbackMaxKey devs tracker) (x :: xs) (by simp)
            rw [hnames, hm] at h
            simp only [Option.some.injEq] at h
            rw [← h]
            exact hmem

lemma totalPoints_record :
    ∀ (names : List String) (tracker : Tracker) (n : String) (p : ℤ),
      n ∈ names → names.Nodup →
      totalPoints names (recordAssign tracker n p) = totalPoints names tracker + p := by
  intro names
  induction names with
  | nil => intro tracker n p hmem _; simp at hmem
  | cons a as ih =>
      intro tracker n p hmem hnd
      simp only [List.nodup_cons] at hnd
      obtain ⟨hna, hnd2⟩ := hnd
      rcases List.mem_cons.mp hmem with rfl | h2
      · simp only [totalPoints, List.map_cons, List.sum_cons]
        have h1 : (recordAssign tracker n p n).story_points
            = (tracker n).story_points + p := by simp [recordAssign]
        have h2 : (as.map fun m => (recordAssign tracker n p m).story_points)
            = as.map fun m => (tracker m).story_points := by
          refine List.map_congr_left fun m hm => ?_
          have hmn : m ≠ n := fun he => hna (he ▸ hm)
          simp [recordAssign, hmn]
        rw [h1, h2]
        ring
      · have hne : a ≠ n := fun he => hna (he ▸ h2)
        simp only [totalPoints, List.map_cons, List.sum_cons]
        have h1 : (recordAssign tracker n p a).story_points
            = (tracker a).story_points := by simp [recordAssign, hne]
        have h3 := ih tracker n p h2 hnd2
        simp only [totalPoints] at h3
        rw [h1, h3]
        ring

lemma classifyMsg_ne_valid (msg n re : String) : classifyMsg msg ≠ .valid n re := by
  unfold classifyMsg
  split_ifs <;> simp

lemma classifyOutcome_valid_mem (names : List String) (out : OracleOutcome)
    (n re : String) (h : classifyOutcome names out = .valid n re) : n ∈ names := by
  cases out with
  | ok a r =>
      simp only [classifyOutcome] at h
      by_cases hm : a.trim ∈ names
      · rw [if_pos hm] at h
        injection h with h1 _
        rw [← h1]
        exact hm
      · rw [if_neg hm] at h
        exact absurd h (classifyMsg_ne_valid _ _ _)
  | jsonError => simp [classifyOutcome] at h
  | exn m =>
      simp only [classifyOutcome] at h
      exact absurd h (classifyMsg_ne_valid _ _ _)

lemma task_cases (devs : List Developer) (oracleT : ℕ → OracleOutcome) (t : Ticket)
    (tracker : Tracker) (hne : devs ≠ []) (hnd : (rosterNames devs).Nodup) :
    (∃ r tr s, assign_single_ticket devs oracleT t tracker = .finished (some r) tr s ∧
        r.ticket_id = pyId t ∧ r.assigned_to ∈ rosterNames devs ∧
        totalPoints (rosterNames devs) tr
          = totalPoints (rosterNames devs) tracker + pyPoints t ∧
        taskResolves (rosterNames devs) oracleT = true) ∨
    (∃ s, assign_single_ticket devs oracleT t tracker = .finished none tracker s ∧
        taskResolves (rosterNames devs) oracleT = false) ∨
    (∃ m s, assign_single_ticket devs oracleT t tracker = .raised m tracker s ∧
        taskResolves (rosterNames devs) oracleT = true) := by
  have FB : ∀ (re : Reason) (s0 : List ℤ), ∃ r tr,
      taskFallback devs t tracker re s0 = .finished (some r) tr s0 ∧
      r.ticket_id = pyId t ∧ r.assigned_to ∈ rosterNames devs ∧
      totalPoints (rosterNames devs) tr
        = totalPoints (rosterNames devs) tracker + pyPoints t := by
    intro re s0
    obtain ⟨n, hn⟩ := smart_fallback_exists devs t tracker hne
    have hmem := smart_fallback_mem devs t tracker n hn
    exact ⟨⟨pyId t, n, re⟩, _, by simp [taskFallback, hn], rfl, hmem,
      totalPoints_record _ _ _ _ hmem hnd⟩
  cases h0 : classifyOutcome (rosterNames devs) (oracleT 0) with
  | valid n re =>
      left
      exact ⟨⟨pyId t, n, .oracle re⟩, _, [], by simp [assign_single_ticket, h0], rfl,
        classifyOutcome_valid_mem _ _ _ _ h0,
        totalPoints_record _ _ _ _ (classifyOutcome_valid_mem _ _ _ _ h0) hnd,
        by simp [taskResolves, h0]⟩
  | authErr m =>
      right; right
      exact ⟨authErrorText m, [], by simp [assign_single_ticket, h0],
        by simp [taskResolves, h0]⟩
  | jsonErr =>
      cases h1 : classifyOutcome (rosterNames devs) (oracleT 1) with
      | valid n re =>
          left
          exact ⟨⟨pyId t, n, .oracle re⟩, _, [],
            by simp [assign_single_ticket, h0, finalAttempt, h1], rfl,
            classifyOutcome_valid_mem _ _ _ _ h1,
            totalPoints_record _ _ _ _ (classifyOutcome_valid_mem _ _ _ _ h1) hnd,
            by simp [taskResolves, h0, h1]⟩
      | authErr m =>
          right; right
          exact ⟨authErrorText m, [], by simp [assign_single_ticket, h0, finalAttempt, h1],
            by simp [taskResolves, h0, h1]⟩
      | rateLimit m =>
          right; left
          exact ⟨[] ++ [4], by simp [assign_single_ticket, h0, finalAttempt, h1],
            by simp [taskResolves, h0, h1]⟩
      | jsonErr =>
          left
          obtain ⟨r, tr, heq, hid, hmem, htot⟩ := FB .fallbackJson []
          exact ⟨r, tr, [], by simp only [assign_single_ticket, h0, finalAttempt, h1]; exact heq,
            hid, hmem, htot, by simp [taskResolves, h0, h1]⟩
      | otherErr m =>
          left
          obtain ⟨r, tr, heq, hid, hmem, htot⟩ := FB (.fallbackApi m) []
          exact ⟨r, tr, [], by simp only [assign_single_ticket, h0, finalAttempt, h1]; exact heq,
            hid, hmem, htot, by simp [taskResolves, h0, h1]⟩
  | rateLimit m0 =>
      cases h1 : classifyOutcome (rosterNames devs) (oracleT 1) with
      | valid n re =>
          left
          exact ⟨⟨pyId t, n, .oracle re⟩, _, [2],
            by simp [assign_single_ticket, h0, finalAttempt, h1], rfl,
            classifyOutcome_valid_mem _ _ _ _ h1,
            totalPoints_record _ _ _ _ (classifyOutcome_valid_mem _ _ _ _ h1) hnd,
            by simp [taskResolves, h0, h1]⟩
      | authErr m =>
          right; right
          exact ⟨authErrorText m, [2], by simp [assign_single_ticket, h0, finalAttempt, h1],
            by simp [taskResolves, h0, h1]⟩
      | rateLimit m =>
          right; left
          exact ⟨[2] ++ [4], by simp [assign_single_ticket, h0, finalAttempt, h1],
            by simp [taskResolves, h0, h1]⟩
      | jsonErr =>
          left
          obtain ⟨r, tr, heq, hid, hmem, htot⟩ := FB .fallbackJson [2]
          exact ⟨r, tr, [2], by simp only [assign_single_ticket, h0, finalAttempt, h1]; exact heq,
            hid, hmem, htot, by simp [taskResolves, h0, h1]⟩
      | otherErr m =>
          left
          obtain ⟨r, tr, heq, hid, hmem, htot⟩ := FB (.fallbackApi m) [2]
          exact ⟨r, tr, [2], by simp only [assign_single_ticket, h0, finalAttempt, h1]; exact heq,
            hid, hmem, htot, by simp [taskResolves, h0, h1]⟩
  | otherErr m0 =>
      cases h1 : classifyOutcome (rosterNames devs) (oracleT 1) with
      | valid n re =>
          left
          exact ⟨⟨pyId t, n, .oracle re⟩, _, [],
            by simp [assign_single_ticket, h0, finalAttempt, h1], rfl,
            classifyOutcome_valid_mem _ _ _ _ h1,
            totalPoints_record _ _ _ _ (classifyOutcome_valid_mem _ _ _ _ h1) hnd,
            by simp [taskResolves, h0, h1]⟩
      | authErr m =>
          right; right
          exact ⟨authErrorText m, [], by simp [assign_single_ticket, h0, finalAttempt, h1],
            by simp [taskResolves, h0, h1]⟩
      | rateLimit m =>
          right; left
          exact ⟨[] ++ [4], by simp [assign_single_ticket, h0, finalAttempt, h1],
            by simp [taskResolves, h0, h1]⟩
      | jsonErr =>
          left
          obtain ⟨r, tr, heq, hid, hmem, htot⟩ := FB .fallbackJson []
          exact ⟨r, tr, [], by simp only [assign_single_ticket, h0, finalAttempt, h1]; exact heq,
            hid, hmem, htot, by simp [taskResolves, h0, h1]⟩
      | otherErr m =>
          left
          obtain ⟨r, tr, heq, hid, hmem, htot⟩ := FB (.fallbackApi m) []
          exact ⟨r, tr, [], by simp only [assign_single_ticket, h0, finalAttempt, h1]; exact heq,
            hid, hmem, htot, by simp [taskResolves, h0, h1]⟩

lemma runBatchAux_spec (devs : List Developer) (oracle : Ticket → ℕ → OracleOutcome)
    (hne : devs ≠ []) (hnd : (rosterNames devs).Nodup) :
    ∀ (tickets : List Ticket) (tracker : Tracker),
      ∃ rs trF, runBatchAux devs oracle tickets tracker = .ok (rs, trF) ∧
        rs.map (·.ticket_id)
          = (tickets.filter fun t => taskResolves (rosterNames devs) (oracle t)).map pyId ∧
        (∀ r ∈ rs, r.assigned_to ∈ rosterNames devs) ∧
        totalPoints (rosterNames devs) trF
          = totalPoints (rosterNames devs) tracker
            + ((tickets.filter fun t =>
                taskResolves (rosterNames devs) (oracle t)).map pyPoints).sum ∧
        rs.length
          = (tickets.filter fun t => taskResolves (rosterNames devs) (oracle t)).length := by
  intro tickets
  induction tickets with
  | nil =>
      intro tracker
      exact ⟨[], tracker, rfl, by simp, by simp, by simp, by simp⟩
  | cons t ts ih =>
      intro tracker
      rcases task_cases devs (oracle t) t tracker hne hnd with
        ⟨r, tr, s, heq, hid, hmem, htot, hres⟩ | ⟨s, heq, hres⟩ | ⟨m, s, heq, hres⟩
      · obtain ⟨rs, trF, hrun, hids, hmems, htots, hlen⟩ := ih tr
        refine ⟨r :: rs, trF, ?_, ?_, ?_, ?_, ?_⟩
        · simp only [runBatchAux, heq, hrun]
        · simp [List.filter_cons, hres, hids, hid]
        · intro x hx
          rcases List.mem_cons.mp hx with rfl | hx2
          · exact hmem
          · exact hmems x hx2
        · simp only [List.filter_cons, hres, if_pos, List.map_cons, List.sum_cons]
          rw [htots, htot]
          ring
        · simp [List.filter_cons, hres, hlen]
      · obtain ⟨rs, trF, hrun, hids, hmems, htots, hlen⟩ := ih tracker
        refine ⟨rs, trF, ?_, ?_, hmems, ?_, ?_⟩
        · simp only [runBatchAux, heq, hrun]
        · simp [List.filter_cons, hres, hids]
        · simp [List.filter_cons, hres, htots]
        · simp [List.filter_cons, hres, hlen]
      · obtain ⟨n, hn⟩ := smart_fallback_exists devs t tracker hne
        have hnmem := smart_fallback_mem devs t tracker n hn
        obtain ⟨rs, trF, hrun, hids, hmems, htots, hlen⟩ := ih (recordAssign tracker n (pyPoints t))
        refine ⟨⟨pyId t, n, .fallbackParallel m⟩ :: rs, trF, ?_, ?_, ?_, ?_, ?_⟩
        · simp only [runBatchAux, heq, hn, hrun]
        · simp [List.filter_cons, hres, hids]
        · intro x hx
          rcases List.mem_cons.mp hx with rfl | hx2
          · exact hnmem
          · exact hmems x hx2
        · simp only [List.filter_cons, hres, if_pos, List.map_cons, List.sum_cons]
          rw [htots, totalPoints_record _ _ _ _ hnmem hnd]
          ring
        · simp [List.filter_cons, hres, hlen]

/-! ### Claim theorems -/

/-- C9: for every availability and every current workload (including
out-of-range values), `calculate_developer_capacity` returns exactly
availability × (20 − current_workload) and never fails; when the workload
exceeds 20 the result is negative (for positive availability) rather than
an error. -/
theorem C9_capacity_formula (availability : ℚ) (workload : ℤ) :
    calculate_developer_capacity availability workload
      = availability * (20 - (workload : ℚ)) ∧
    (20 < workload → 0 < availability →
      calculate_developer_capacity availability workload < 0) := by
  refine ⟨rfl, fun hw ha => ?_⟩
  unfold calculate_developer_capacity
  have h20 : (20 : ℚ) < (workload : ℚ) := by exact_mod_cast hw
  have : (20 : ℚ) - (workload : ℚ) < 0 := by linarith
  exact mul_neg_of_pos_of_neg ha this

/-- Witness for C9 at availability 1, workload 25: the capacity is
negative. -/
theorem C9_capacity_formula_witness : calculate_developer_capacity 1 25 < 0 :=
  (C9_capacity_formula 1 25).2 (by norm_num) (by norm_num)

/-- C10: for every ticket whose required_skill is missing or empty, the
empty string is a substring of every skills string, so the fallback
scorer grants the 5.0 skill-match bonus to every developer and the score
reduces to the remaining-capacity, batch-count and experience terms
plus the constant bonus. -/
theorem C10_empty_skill_bonus (t : Ticket) (tracker : Tracker) (d : Developer)
    (h : t.required_skill = none ∨ t.required_skill = some "") :
    devScore t tracker d
      = devRemaining tracker d * (0.4 : ℚ) + (5.0 : ℚ)
        + ((10 : ℚ) - ((tracker d.name).tickets : ℚ)) * (0.5 : ℚ)
        + d.experience_years * (0.1 : ℚ) := by
  have hskill : requiredSkillLower t = "" := by
    rcases h with h | h <;> rw [requiredSkillLower, h] <;> with_unfolding_all rfl
  unfold devScore
  rw [hskill, if_pos (containsSub_empty d.skills.toLower)]

/-- Witness for C10 at a concrete skill-less ticket and the example
developer. -/
theorem C10_empty_skill_bonus_witness :
    (noSkillTicket.required_skill = none ∨ noSkillTicket.required_skill = some "") ∧
    devScore noSkillTicket zeroTracker devAlice
      = devRemaining zeroTracker devAlice * (0.4 : ℚ) + (5.0 : ℚ)
        + ((10 : ℚ) - ((zeroTracker devAlice.name).tickets : ℚ)) * (0.5 : ℚ)
        + devAlice.experience_years * (0.1 : ℚ) :=
  ⟨Or.inl rfl, C10_empty_skill_bonus noSkillTicket zeroTracker devAlice (Or.inl rfl)⟩

/-- C8: a missing (None or empty) or placeholder API key makes
`assign_ticket_from_csv` return a configuration error whose value does
not depend on the roster, the oracle or the tickets: no ticket is
processed, no oracle call is made, and no assignment result is
produced. -/
theorem C8_config_error_first (api_key : Option String)
    (h : api_key = none ∨ api_key = some "" ∨ api_key = some "your_openai_api_key_here") :
    ∃ e, ∀ (devs : List Developer) (oracle : Ticket → ℕ → OracleOutcome)
      (tickets : List Ticket),
      assign_ticket_from_csv devs api_key oracle tickets = .error e := by
  rcases h with rfl | rfl | rfl
  · exact ⟨_, fun _ _ _ => rfl⟩
  · exact ⟨_, fun _ _ _ => rfl⟩
  · exact ⟨_, fun _ _ _ => rfl⟩

/-- Witness for C8 with the key absent. -/
theorem C8_config_error_first_witness :
    ((none : Option String) = none ∨ (none : Option String) = some ""
        ∨ (none : Option String) = some "your_openai_api_key_here") ∧
    ∃ e, ∀ (devs : List Developer) (oracle : Ticket → ℕ → OracleOutcome)
      (tickets : List Ticket),
      assign_ticket_from_csv devs none oracle tickets = .error e :=
  ⟨Or.inl rfl, C8_config_error_first none (Or.inl rfl)⟩

/-- C4: for every ticket and tracker state and every nonempty roster with
distinct names, `smart_fallback_assignment` returns the name of some
roster developer; if any developer passes the capacity gate the returned
developer passes it too (it is never an over-capacity developer while an
in-capacity one exists); and if every developer fails the gate the
returned developer has maximal remaining capacity. -/
theorem C4_fallback_gate (devs : List Developer) (t : Ticket) (tracker : Tracker)
    (hne : devs ≠ []) (hnd : (rosterNames devs).Nodup) :
    ∃ d, d ∈ devs ∧ smart_fallback_assignment devs t tracker = some d.name ∧
      ((∃ e ∈ devs, gatePass t tracker e) → gatePass t tracker d) ∧
      ((∀ e ∈ devs, ¬ gatePass t tracker e) →
        ∀ e ∈ devs, devRemaining tracker e ≤ devRemaining tracker d) := by
  have maxBranch : ∃ d, d ∈ devs ∧
      pyMaxBy (fallbackMaxKey devs tracker) (rosterNames devs) = some d.name ∧
      ∀ e ∈ devs, devRemaining tracker e ≤ devRemaining tracker d := by
    have hnames : rosterNames devs ≠ [] := by
      unfold rosterNames
      simpa using hne
    obtain ⟨m, hm, hmem, hge⟩ := pyMaxBy_spec (fallbackMaxKey devs tracker) _ hnames
    obtain ⟨d, hd, hdn⟩ := List.mem_map.mp hmem
    have hkey : ∀ e ∈ devs, fallbackMaxKey devs tracker e.name = devRemaining tracker e := by
      intro e he
      unfold fallbackMaxKey devRemaining
      rw [find?_name_self devs hnd e he]
    refine ⟨d, hd, by rw [hm, hdn], fun e he => ?_⟩
    have h1 := hge e.name (List.mem_map.mpr ⟨e, he, rfl⟩)
    rw [hkey e he] at h1
    rw [← hdn, hkey d hd] at h1
    exact h1
  unfold smart_fallback_assignment
  rw [fallback_loop_eq]
  cases hfa : firstArgmax (devScore t tracker)
      (devs.filter fun d => decide (gatePass t tracker d)) with
  | none =>
      simp only [applyBest]
      obtain ⟨d, hd, hpick, hmax⟩ := maxBranch
      refine ⟨d, hd, hpick, fun hex => ?_, fun _ => hmax⟩
      obtain ⟨e, he, hge⟩ := hex
      unfold gatePass at hge ⊢
      intro hlt
      exact hge (lt_of_le_of_lt (hmax e he) hlt)
  | some b =>
      have hbmem := firstArgmax_mem (devScore t tracker) _ _ hfa
      rw [List.mem_filter] at hbmem
      have hbg : gatePass t tracker b := of_decide_eq_true hbmem.2
      by_cases hb1 : devScore t tracker b > (((none : Option String), (-1 : ℚ))).2
      · simp only [applyBest, if_pos hb1]
        exact ⟨b, hbmem.1, rfl, fun _ => hbg, fun hall => absurd hbg (hall b hbmem.1)⟩
      · simp only [applyBest, if_neg hb1]
        obtain ⟨d, hd, hpick, hmax⟩ := maxBranch
        refine ⟨d, hd, hpick, fun _ => ?_, fun _ => hmax⟩
        unfold gatePass at hbg ⊢
        intro hlt
        exact hbg (lt_of_le_of_lt (hmax b hbmem.1) hlt)

/-- Witness for C4 at the singleton example roster. -/
theorem C4_fallback_gate_witness :
    ([devAlice] ≠ [] ∧ (rosterNames [devAlice]).Nodup) ∧
    ∃ d, d ∈ [devAlice] ∧
      smart_fallback_assignment [devAlice] wTicket zeroTracker = some d.name ∧
      ((∃ e ∈ [devAlice], gatePass wTicket zeroTracker e) → gatePass wTicket zeroTracker d) ∧
      ((∀ e ∈ [devAlice], ¬ gatePass wTicket zeroTracker e) →
        ∀ e ∈ [devAlice], devRemaining zeroTracker e ≤ devRemaining zeroTracker d) :=
  ⟨⟨by simp, by decide⟩,
    C4_fallback_gate [devAlice] wTicket zeroTracker (by simp) (by decide)⟩

/-- C5 (amended): provided some gate-passing developer scores strictly
above the -1 sentinel that initialises `best_score`, the fallback scorer
returns exactly the maximal-score gate-passing developer, first-seen
winning ties, as the claim describes. -/
theorem C5_score_argmax (devs : List Developer) (t : Ticket) (tracker : Tracker)
    (h : ∃ d ∈ devs, gatePass t tracker d ∧ devScore t tracker d > -1) :
    smart_fallback_assignment devs t tracker = claimedFallbackPick devs t tracker := by
  obtain ⟨d0, hd0, hg0, hs0⟩ := h
  have hd0f : d0 ∈ devs.filter (fun d => decide (gatePass t tracker d)) :=
    List.mem_filter.mpr ⟨hd0, by simpa⟩
  obtain ⟨b, hb⟩ : ∃ b, firstArgmax (devScore t tracker)
      (devs.filter fun d => decide (gatePass t tracker d)) = some b := by
    cases hfa : firstArgmax (devScore t tracker)
        (devs.filter fun d => decide (gatePass t tracker d)) with
    | none =>
        rw [firstArgmax_eq_none _ _ hfa] at hd0f
        simp at hd0f
    | some b => exact ⟨b, rfl⟩
  have hge := firstArgmax_ge (devScore t tracker) _ _ hd0f _ hb
  have hb1 : devScore t tracker b > -1 := lt_of_lt_of_le hs0 hge
  unfold smart_fallback_assignment claimedFallbackPick
  rw [fallback_loop_eq, hb]
  simp only [applyBest, if_pos hb1]
  rfl

/-- Witness for C5: the spec example roster A/B/C with the python ticket
of 3 points; the amended theorem applies and the scorer picks A. -/
theorem C5_score_argmax_witness :
    (∃ d ∈ [devAlice, devBob, devCarol],
        gatePass wTicket zeroTracker d ∧ devScore wTicket zeroTracker d > -1) ∧
    smart_fallback_assignment [devAlice, devBob, devCarol] wTicket zeroTracker
      = some "Alice" :=
  ⟨by with_unfolding_all decide,
    (C5_score_argmax [devAlice, devBob, devCarol] wTicket zeroTracker
        (by with_unfolding_all decide)).trans
      (by with_unfolding_all rfl)⟩

/-- Counterexample for C5 as stated: both developers pass the gate but
score at or below the -1 sentinel, so the loop never selects anybody and
the code falls through to the maximal-remaining branch, returning Yuri
even though Xena has the strictly larger heuristic score. -/
theorem C5_sentinel_cex :
    smart_fallback_assignment [devXena, devYuri] cexTicket cexTracker = some "Yuri" ∧
    claimedFallbackPick [devXena, devYuri] cexTicket cexTracker = some "Xena" ∧
    gatePass cexTicket cexTracker devXena ∧ gatePass cexTicket cexTracker devYuri ∧
    devScore cexTicket cexTracker devYuri < devScore cexTicket cexTracker devXena :=
  ⟨by with_unfolding_all rfl, by with_unfolding_all rfl, by with_unfolding_all decide,
    by with_unfolding_all decide, by with_unfolding_all decide⟩

/-- C1 (amended): for every batch over a nonempty roster with distinct
names, with distinct input ticket ids and a valid API key, and provided
no ticket exhausts its retry budget on a rate-limit classified failure
(so every task yields a result), `assign_ticket_from_csv` returns exactly
one result per input ticket, the output ticket ids are a permutation of
the input ids with no duplicates, the list is sorted ascending by ticket
id, and every `assigned_to` is a roster name. -/
theorem C1_batch_contract (devs : List Developer) (api_key : Option String)
    (oracle : Ticket → ℕ → OracleOutcome) (tickets : List Ticket)
    (hkey : get_openai_client api_key = .ok ())
    (hne : devs ≠ []) (hnd : (rosterNames devs).Nodup)
    (hids : (tickets.map pyId).Nodup)
    (hres : ∀ t ∈ tickets, taskResolves (rosterNames devs) (oracle t) = true) :
    ∃ results, assign_ticket_from_csv devs api_key oracle tickets = .ok results ∧
      results.length = tickets.length ∧
      List.Perm (results.map (·.ticket_id)) (tickets.map pyId) ∧
      (results.map (·.ticket_id)).Nodup ∧
      List.Sorted resultLE results ∧
      ∀ r ∈ results, r.assigned_to ∈ rosterNames devs := by
  obtain ⟨rs, trF, hrun, hidseq, hmems, _, hlen⟩ :=
    runBatchAux_spec devs oracle hne hnd tickets zeroTracker
  have hfilter : tickets.filter (fun t => taskResolves (rosterNames devs) (oracle t))
      = tickets := List.filter_eq_self.mpr fun a ha => hres a ha
  rw [hfilter] at hidseq hlen
  have hperm : List.Perm (List.insertionSort resultLE rs) rs :=
    List.perm_insertionSort resultLE rs
  refine ⟨List.insertionSort resultLE rs, ?_, ?_, ?_, ?_, ?_, ?_⟩
  · simp only [assign_ticket_from_csv, hkey, runBatch, hrun]
  · rw [hperm.length_eq, hlen]
  · have h1 : List.Perm ((List.insertionSort resultLE rs).map (·.ticket_id))
        (rs.map (·.ticket_id)) := hperm.map _
    rw [hidseq] at h1
    exact h1
  · have h1 : List.Perm ((List.insertionSort resultLE rs).map (·.ticket_id))
        (rs.map (·.ticket_id)) := hperm.map _
    rw [hidseq] at h1
    exact h1.symm.nodup hids
  · exact List.sorted_insertionSort resultLE rs
  · intro r hr
    exact hmems r (hperm.subset hr)

/-- Witness for C1 at a singleton batch with a well-behaved oracle. -/
theorem C1_batch_contract_witness :
    (get_openai_client (some "sk-test") = .ok () ∧ [devAlice] ≠ [] ∧
      (rosterNames [devAlice]).Nodup ∧ ([wTicket].map pyId).Nodup ∧
      ∀ t ∈ [wTicket], taskResolves (rosterNames [devAlice]) (okOracle t) = true) ∧
    ∃ results,
      assign_ticket_from_csv [devAlice] (some "sk-test") okOracle [wTicket] = .ok results ∧
      results.length = [wTicket].length ∧
      List.Perm (results.map (·.ticket_id)) ([wTicket].map pyId) ∧
      (results.map (·.ticket_id)).Nodup ∧
      List.Sorted resultLE results ∧
      ∀ r ∈ results, r.assigned_to ∈ rosterNames [devAlice] :=
  ⟨⟨rfl, by simp, by decide, by decide, by with_unfolding_all decide⟩,
    C1_batch_contract [devAlice] (some "sk-test") okOracle [wTicket] rfl (by simp)
      (by decide) (by decide) (by with_unfolding_all decide)⟩

/-- Counterexample for C1 as stated: a single ticket whose two oracle
attempts both fail with a rate-limit signal is silently dropped, so the
batch of one ticket yields zero results instead of one. -/
theorem C1_rate_limit_drop_cex :
    assign_ticket_from_csv [devAlice] (some "sk-test") rateOracle [wTicket] = .ok [] ∧
    ([] : List AssignmentResult).length ≠ [wTicket].length := by
  exact ⟨by with_unfolding_all rfl, by decide⟩

/-- C2 (amended): an authentication-classified failure on the
first oracle attempt of a ticket makes the per-ticket task abort immediately - no
retry, no sleep, no tracker update - and raise; but the batch does not
abort: the orchestrator catches the exception, emits a fallback result
for that ticket, and keeps processing the remaining tickets. -/
theorem C2_auth_task_abort (devs : List Developer) (oracle : Ticket → ℕ → OracleOutcome)
    (t : Ticket) (rest : List Ticket) (tracker : Tracker) (m : String)
    (hne : devs ≠ []) (hnd : (rosterNames devs).Nodup)
    (hauth : classifyOutcome (rosterNames devs) (oracle t 0) = .authErr m) :
    assign_single_ticket devs (oracle t) t tracker = .raised (authErrorText m) tracker [] ∧
    ∃ fb rs trF, smart_fallback_assignment devs t tracker = some fb ∧
      fb ∈ rosterNames devs ∧
      runBatchAux devs oracle rest (recordAssign tracker fb (pyPoints t)) = .ok (rs, trF) ∧
      runBatchAux devs oracle (t :: rest) tracker
        = .ok (AssignmentResult.mk (pyId t) fb (.fallbackParallel (authErrorText m)) :: rs,
            trF) := by
  have htask : assign_single_ticket devs (oracle t) t tracker
      = .raised (authErrorText m) tracker [] := by
    simp [assign_single_ticket, hauth]
  obtain ⟨fb, hfb⟩ := smart_fallback_exists devs t tracker hne
  obtain ⟨rs, trF, hrun, _, _, _, _⟩ :=
    runBatchAux_spec devs oracle hne hnd rest (recordAssign tracker fb (pyPoints t))
  exact ⟨htask, fb, rs, trF, hfb, smart_fallback_mem _ _ _ _ hfb, hrun,
    by simp only [runBatchAux, htask, hfb, hrun]⟩

/-- Witness for C2 at a concrete 401 failure. -/
theorem C2_auth_task_abort_witness :
    ([devAlice] ≠ [] ∧ (rosterNames [devAlice]).Nodup ∧
      classifyOutcome (rosterNames [devAlice]) (authOracle tA 0)
        = .authErr "401 Unauthorized") ∧
    (assign_single_ticket [devAlice] (authOracle tA) tA zeroTracker
        = .raised (authErrorText "401 Unauthorized") zeroTracker [] ∧
      ∃ fb rs trF, smart_fallback_assignment [devAlice] tA zeroTracker = some fb ∧
        fb ∈ rosterNames [devAlice] ∧
        runBatchAux [devAlice] authOracle [] (recordAssign zeroTracker fb (pyPoints tA))
          = .ok (rs, trF) ∧
        runBatchAux [devAlice] authOracle [tA] zeroTracker
          = .ok (AssignmentResult.mk (pyId tA) fb
              (.fallbackParallel (authErrorText "401 Unauthorized")) :: rs, trF)) :=
  ⟨⟨by simp, by decide, by with_unfolding_all rfl⟩,
    C2_auth_task_abort [devAlice] authOracle tA [] zeroTracker "401 Unauthorized"
      (by simp) (by decide) (by with_unfolding_all rfl)⟩

/-- Counterexample for C2 as stated: ticket 1 hits a 401 authentication
failure on its first attempt, yet the batch run returns normally with a
fallback result for ticket 1 and an oracle-backed result for ticket 2 -
no error propagates to the caller and the oracle call for ticket 2 still
happened. -/
theorem C2_no_batch_abort_cex :
    assign_ticket_from_csv [devAlice] (some "sk-test") authOracle [tA, tB]
      = .ok [⟨1, "Alice", .fallbackParallel (authErrorText "401 Unauthorized")⟩,
             ⟨2, "Alice", .oracle "second ticket assigned normally"⟩] := by
  with_unfolding_all rfl

/-- C3 (code bug): with both oracle attempts failing on a rate-limit
signal, the task does back off with the linearly increasing sleeps 2 then
4 seconds, but then its loop exits with no result and no tracker update,
and the orchestrator silently drops the ticket: the batch of one ticket
returns zero results instead of deferring to the fallback scorer. -/
theorem C3_rate_limit_exhaustion_drop :
    assign_single_ticket [devAlice] (rateOracle wTicket) wTicket zeroTracker
      = .finished none zeroTracker [2, 4] ∧
    assign_ticket_from_csv [devAlice] (some "sk-test") rateOracle [wTicket] = .ok [] := by
  exact ⟨by with_unfolding_all rfl, by with_unfolding_all rfl⟩

/-- C6: for every batch over a nonempty roster with distinct names, the
run succeeds and the sum over all developers of the recorded tracker
story points equals the sum of the story points of exactly the tickets
whose task resolved to a result, and the number of collected results
equals the number of resolving tickets. -/
theorem C6_tracker_conservation (devs : List Developer)
    (oracle : Ticket → ℕ → OracleOutcome) (tickets : List Ticket)
    (hne : devs ≠ []) (hnd : (rosterNames devs).Nodup) :
    ∃ rs trF, runBatchAux devs oracle tickets zeroTracker = .ok (rs, trF) ∧
      totalPoints (rosterNames devs) trF
        = ((tickets.filter fun t =>
            taskResolves (rosterNames devs) (oracle t)).map pyPoints).sum ∧
      rs.length
        = (tickets.filter fun t => taskResolves (rosterNames devs) (oracle t)).length := by
  obtain ⟨rs, trF, hrun, _, _, htot, hlen⟩ :=
    runBatchAux_spec devs oracle hne hnd tickets zeroTracker
  have hz : totalPoints (rosterNames devs) zeroTracker = 0 := by
    apply List.sum_eq_zero
    intro x hx
    obtain ⟨n, _, hn⟩ := List.mem_map.mp hx
    rw [← hn]
    rfl
  rw [hz, zero_add] at htot
  exact ⟨rs, trF, hrun, htot, hlen⟩

/-- Witness for C6: a two-ticket batch where the first ticket resolves
through the oracle and the second is dropped by rate-limit exhaustion. -/
theorem C6_tracker_conservation_witness :
    ([devAlice] ≠ [] ∧ (rosterNames [devAlice]).Nodup) ∧
    ∃ rs trF, runBatchAux [devAlice] okOracle [tA, tB] zeroTracker = .ok (rs, trF) ∧
      totalPoints (rosterNames [devAlice]) trF
        = (([tA, tB].filter fun t =>
            taskResolves (rosterNames [devAlice]) (okOracle t)).map pyPoints).sum ∧
      rs.length
        = ([tA, tB].filter fun t =>
            taskResolves (rosterNames [devAlice]) (okOracle t)).length :=
  ⟨⟨by simp, by decide⟩,
    C6_tracker_conservation [devAlice] okOracle [tA, tB] (by simp) (by decide)⟩

/-- C7 (amended): an oracle response naming an unknown developer is
rejected; provided the raised invalid-name message matches neither the
rate-limit nor the authentication indicators, the first such response is
retried and a second one exhausts the budget and defers to the fallback
scorer, whose pick is a roster member - in particular different from both
invalid names, which therefore never appear in any result. -/
theorem C7_invalid_assignee (devs : List Developer) (t : Ticket) (tracker : Tracker)
    (oracleT : ℕ → OracleOutcome) (n0 re0 n1 re1 : String)
    (hne : devs ≠ [])
    (e0 : oracleT 0 = .ok n0 re0) (m0 : n0.trim ∉ rosterNames devs)
    (c0 : classifyMsg (invalidNameMsg n0) = .otherErr (invalidNameMsg n0))
    (e1 : oracleT 1 = .ok n1 re1) (m1 : n1.trim ∉ rosterNames devs)
    (c1 : classifyMsg (invalidNameMsg n1) = .otherErr (invalidNameMsg n1)) :
    ∃ fb, smart_fallback_assignment devs t tracker = some fb ∧
      fb ∈ rosterNames devs ∧ fb ≠ n0.trim ∧ fb ≠ n1.trim ∧
      assign_single_ticket devs oracleT t tracker
        = .finished (some ⟨pyId t, fb, .fallbackApi (invalidNameMsg n1)⟩)
            (recordAssign tracker fb (pyPoints t)) [] := by
  obtain ⟨fb, hfb⟩ := smart_fallback_exists devs t tracker hne
  have hmem := smart_fallback_mem devs t tracker fb hfb
  have h0 : classifyOutcome (rosterNames devs) (oracleT 0)
      = .otherErr (invalidNameMsg n0) := by
    rw [e0]
    simp only [classifyOutcome, if_neg m0]
    exact c0
  have h1 : classifyOutcome (rosterNames devs) (oracleT 1)
      = .otherErr (invalidNameMsg n1) := by
    rw [e1]
    simp only [classifyOutcome, if_neg m1]
    exact c1
  refine ⟨fb, hfb, hmem, fun h => m0 (h ▸ hmem), fun h => m1 (h ▸ hmem), ?_⟩
  simp only [assign_single_ticket, h0, finalAttempt, h1, taskFallback, hfb]

/-- Witness for C7: the oracle names Bob twice, who is not on the
singleton roster; the task falls back to Alice. -/
theorem C7_invalid_assignee_witness :
    ([devAlice] ≠ [] ∧ ("Bob" : String).trim ∉ rosterNames [devAlice] ∧
      classifyMsg (invalidNameMsg "Bob") = .otherErr (invalidNameMsg "Bob")) ∧
    ∃ fb, smart_fallback_assignment [devAlice] wTicket zeroTracker = some fb ∧
      fb ∈ rosterNames [devAlice] ∧ fb ≠ ("Bob" : String).trim ∧
      fb ≠ ("Bob" : String).trim ∧
      assign_single_ticket [devAlice] (bobOracle wTicket) wTicket zeroTracker
        = .finished (some ⟨pyId wTicket, fb, .fallbackApi (invalidNameMsg "Bob")⟩)
            (recordAssign zeroTracker fb (pyPoints wTicket)) [] :=
  ⟨⟨by simp, by with_unfolding_all decide, by with_unfolding_all rfl⟩,
    C7_invalid_assignee [devAlice] wTicket zeroTracker (bobOracle wTicket)
      "Bob" "pick" "Bob" "pick" (by simp) rfl (by with_unfolding_all decide)
      (by with_unfolding_all rfl) rfl (by with_unfolding_all decide)
      (by with_unfolding_all rfl)⟩

/-- Counterexample for C7 as stated: the unknown name HAL429 contains the
rate-limit indicator 429, so the invalid-name error is classified as a
rate limit; both attempts are retried as rate limits and the ticket is
dropped with no fallback assignment at all (empty output), instead of
being assigned by the fallback scorer on exhaustion. -/
theorem C7_rate_like_name_cex :
    ("HAL429" : String).trim ∉ rosterNames [devAlice] ∧
    assign_ticket_from_csv [devAlice] (some "sk-test") halOracle [wTicket] = .ok [] :=
  ⟨by with_unfolding_all decide, by with_unfolding_all rfl⟩

end TicketMgr
